import Mathlib

/-!
Verification of the spatial-indexing core (AABB interval algebra, the
three-way query-classification protocol, the plane half-space query and
the compact BVH with its stack-based traversal) against its
natural-language specification.  The Rust source is embedded shallowly:
the generic scalar is a linear order (the AABB algebra) or Int (the
plane query, mirroring the i64 instantiation of the tests); fallible
operations (array indexing, assertions, unbounded loops) return Option.
-/

/-- The three-way relation between an AABB and a query body
(src/aabb.rs, enum AABBRelation): Interleave = disjoint,
Intersect = partial, Include = fully contained. -/
inductive AABBRelation where
  | Interleave
  | Intersect
  | Include
deriving DecidableEq, Repr

/-- Three-component vector (src/vector.rs, struct Vec3). -/
structure Vec3 (α : Type) where
  x : α
  y : α
  z : α
deriving DecidableEq, Repr

/-- Componentwise map (src/vector.rs, the BitOr impl). -/
def Vec3.vmap (v : Vec3 α) (f : α → β) : Vec3 β :=
  ⟨f v.x, f v.y, f v.z⟩

/-- Fail-fast componentwise map (src/vector.rs, the BitAnd impl):
some only when the function succeeds on all three components. -/
def Vec3.vtry (v : Vec3 α) (f : α → Option β) : Option (Vec3 β) :=
  match f v.x, f v.y, f v.z with
  | some a, some b, some c => some ⟨a, b, c⟩
  | _, _, _ => none

/-- Componentwise zip (src/vector.rs, the Div impl). -/
def Vec3.vzip (v : Vec3 α) (w : Vec3 β) : Vec3 (α × β) :=
  ⟨(v.x, w.x), (v.y, w.y), (v.z, w.z)⟩

/-- Separate a vector of pairs into two vectors (src/vector.rs, unzip). -/
def Vec3.unzip (v : Vec3 (α × β)) : Vec3 α × Vec3 β :=
  (⟨v.x.1, v.y.1, v.z.1⟩, ⟨v.x.2, v.y.2, v.z.2⟩)

/-- Dot product (src/vector.rs, the BitXor impl), at the i64 instance. -/
def Vec3.dot (v w : Vec3 Int) : Int :=
  v.x * w.x + v.y * w.y + v.z * w.z

/-- Componentwise subtraction (src/vector.rs, the Sub impl). -/
def Vec3.vsub (v w : Vec3 Int) : Vec3 Int :=
  ⟨v.x - w.x, v.y - w.y, v.z - w.z⟩

/-- Total-order comparison returning an Ordering, the embedding of
Ord::cmp on integers. -/
def cmp3 (a b : Int) : Ordering :=
  if a < b then .lt else if a = b then .eq else .gt

/-- Sign vector of a direction (src/vector.rs, to_ordering): each
component compared against zero. -/
def Vec3.to_ordering (v : Vec3 Int) : Vec3 Ordering :=
  ⟨cmp3 v.x 0, cmp3 v.y 0, cmp3 v.z 0⟩

/-- Axis-aligned box as one (lo, hi) pair per axis
(src/aabb.rs, struct AABB3). -/
structure AABB3 (α : Type) where
  iv : Vec3 (α × α)
deriving DecidableEq, Repr

/-- Interval intersection as written in src/aabb.rs (intersect_intervals):
two guarded cases, else none. -/
def intersect_intervals [LinearOrder α] (a b : α × α) : Option (α × α) :=
  if a.1 ≤ b.1 ∧ b.1 ≤ a.2 then some (b.1, min a.2 b.2)
  else if a.1 ≤ b.2 ∧ b.2 ≤ a.2 then some (max a.1 b.1, b.2)
  else none

/-- Order a pair ascending (src/aabb.rs, order_pair). -/
def order_pair [LinearOrder α] (a b : α) : α × α :=
  if b < a then (b, a) else (a, b)

/-- Swap a pair when the ordering is Greater (src/aabb.rs, reorder_pair). -/
def reorder_pair (pair : α × α) (ord : Ordering) : α × α :=
  match ord with
  | .gt => (pair.2, pair.1)
  | _ => pair

/-- some () exactly when the two values differ (src/aabb.rs, is_ne_pair). -/
def is_ne_pair [DecidableEq α] (a b : α) : Option Unit :=
  if a ≠ b then some () else none

/-- Canonical constructor (src/aabb.rs, AABB3::new): per axis the
ordered pair of the two corner coordinates. -/
def AABB3.new [LinearOrder α] (p0 p1 : Vec3 α) : AABB3 α :=
  ⟨(p0.vzip p1).vmap (fun p => order_pair p.1 p.2)⟩

/-- Union of two boxes (src/aabb.rs, AABB3::extends): per axis
(min of lows, max of highs). -/
def AABB3.extend [LinearOrder α] (s a : AABB3 α) : AABB3 α :=
  ⟨(s.iv.vzip a.iv).vmap (fun p => (min p.1.1 p.2.1, max p.1.2 p.2.2))⟩

/-- Intersection of two boxes (src/aabb.rs, AABB3::intersects):
fail-fast per-axis interval intersection. -/
def AABB3.intersects [LinearOrder α] (s a : AABB3 α) : Option (AABB3 α) :=
  ((s.iv.vzip a.iv).vtry (fun p => intersect_intervals p.1 p.2)).map AABB3.mk

/-- Degeneracy check as written in src/aabb.rs (AABB3::is_degraded):
true when lo and hi differ on all three axes. -/
def AABB3.is_degraded [DecidableEq α] (s : AABB3 α) : Bool :=
  (s.iv.vtry (fun p => is_ne_pair p.1 p.2)).isSome

/-- Intersection test as written in src/aabb.rs
(AABB3::does_intersects_with): the intersection exists and its
is_degraded is negated. -/
def AABB3.does_intersects_with [LinearOrder α] (s a : AABB3 α) : Bool :=
  match s.intersects a with
  | some body => !body.is_degraded
  | none => false

/-- Per-axis corner selection by a sign vector (src/aabb.rs,
AABB3::from_ordering). -/
def AABB3.from_ordering (s : AABB3 α) (v : Vec3 Ordering) : Vec3 (α × α) :=
  (s.iv.vzip v).vmap (fun p => reorder_pair p.1 p.2)

/-- The lo ≤ hi per-axis invariant of a box. -/
def AABB3.canonical [LinearOrder α] (b : AABB3 α) : Prop :=
  b.iv.x.1 ≤ b.iv.x.2 ∧ b.iv.y.1 ≤ b.iv.y.2 ∧ b.iv.z.1 ≤ b.iv.z.2

instance [LinearOrder α] (b : AABB3 α) : Decidable b.canonical := by
  unfold AABB3.canonical; infer_instance

/-- The per-axis closed-interval overlap condition of the spec:
a.lo ≤ b.hi and b.lo ≤ a.hi on every axis. -/
def axisOverlap [LinearOrder α] (a b : AABB3 α) : Prop :=
  (a.iv.x.1 ≤ b.iv.x.2 ∧ b.iv.x.1 ≤ a.iv.x.2) ∧
  (a.iv.y.1 ≤ b.iv.y.2 ∧ b.iv.y.1 ≤ a.iv.y.2) ∧
  (a.iv.z.1 ≤ b.iv.z.2 ∧ b.iv.z.1 ≤ a.iv.z.2)

instance [LinearOrder α] (a b : AABB3 α) : Decidable (axisOverlap a b) := by
  unfold axisOverlap; infer_instance

/-- The 8 corners of a box, in the enumeration order of the naive plane
query (src/plane.rs, the vs array of PlaneNaive3::check). -/
def corners (bound : AABB3 Int) : List (Vec3 Int) :=
  let v := bound.iv
  [⟨v.x.1, v.y.1, v.z.1⟩, ⟨v.x.1, v.y.1, v.z.2⟩,
   ⟨v.x.1, v.y.2, v.z.1⟩, ⟨v.x.1, v.y.2, v.z.2⟩,
   ⟨v.x.2, v.y.1, v.z.1⟩, ⟨v.x.2, v.y.1, v.z.2⟩,
   ⟨v.x.2, v.y.2, v.z.1⟩, ⟨v.x.2, v.y.2, v.z.2⟩]

/-- Half-space query (src/plane.rs, struct Plane3) at the i64 instance:
normal, its sign vector and the precomputed plane offset. -/
structure Plane3 where
  normal : Vec3 Int
  dir : Vec3 Ordering
  distance : Int
deriving Repr

/-- Constructor (src/plane.rs, Plane3::new). -/
def Plane3.new (point normal : Vec3 Int) : Plane3 :=
  ⟨normal, normal.to_ordering, point.dot normal⟩

/-- The two-corner fast-path classification (src/plane.rs,
Plane3::check for AABBQuery). -/
def Plane3.check (p : Plane3) (bound : AABB3 Int) : AABBRelation :=
  let pr := (bound.from_ordering p.dir).unzip
  let dp := pr.2.dot p.normal
  let dn := pr.1.dot p.normal
  if p.distance < dp then
    if p.distance ≤ dn then .Interleave else .Intersect
  else
    if dn < p.distance then .Include else .Intersect

/-- The naive reference plane query (src/plane.rs, struct PlaneNaive3,
test module). -/
structure PlaneNaive3 where
  point : Vec3 Int
  normal : Vec3 Int
deriving Repr

/-- The flag-carrying corner loop of PlaneNaive3::check (src/plane.rs):
on the empty suffix the source asserts that at least one flag was set
and returns Intersect in the all-on-plane case. -/
def naiveLoop (p : PlaneNaive3) :
    List (Vec3 Int) → Bool → Bool → Bool → AABBRelation
  | [], less, _equal, greater =>
    if greater then .Interleave
    else if less then .Include
    else .Intersect
  | v :: rest, less, equal, greater =>
    let d := (v.vsub p.point).dot p.normal
    match cmp3 d 0 with
    | .lt => if greater then .Intersect else naiveLoop p rest true equal greater
    | .eq => naiveLoop p rest less true greater
    | .gt => if less then .Intersect else naiveLoop p rest less equal true

/-- Brute-force 8-corner classification (src/plane.rs,
PlaneNaive3::check). -/
def PlaneNaive3.check (p : PlaneNaive3) (bound : AABB3 Int) : AABBRelation :=
  naiveLoop p (corners bound) false false false

/-- Branch node of the BVH (src/bvh.rs, struct BVHBranch): a bound and
two tagged child references. -/
structure BVHBranch (β : Type) where
  bound : β
  left : Nat
  right : Nat
deriving Repr

/-- Leaf node of the BVH (src/bvh.rs, struct BVHLeaf): a bound and a
payload value. -/
structure BVHLeaf (β ν : Type) where
  bound : β
  value : ν
deriving Repr

/-- The compact immutable BVH (src/bvh.rs, struct BVH): a tagged root
reference and the branch and leaf arrays. -/
structure BVH (β ν : Type) where
  root : Nat
  branches : List (BVHBranch β)
  leaves : List (BVHLeaf β ν)

/-- Decode a tagged node reference (src/bvh.rs, decompose): the index
and whether the reference names a branch. -/
def decompose (id : Nat) : Nat × Bool :=
  (id >>> 1, (id &&& 1) != 0)

/-- The always-left descent of BVH::leftmost (src/bvh.rs), with fuel for
the unbounded loop and none for an out-of-range branch index. -/
def leftmostAux (branches : List (BVHBranch β)) : Nat → Nat → Option Nat
  | 0, _ => none
  | fuel + 1, branch =>
    match branches.get? branch with
    | none => none
    | some node =>
      match decompose node.left with
      | (id, false) => some id
      | (id, true) => leftmostAux branches fuel id

/-- The always-right descent of BVH::rightmost (src/bvh.rs). -/
def rightmostAux (branches : List (BVHBranch β)) : Nat → Nat → Option Nat
  | 0, _ => none
  | fuel + 1, branch =>
    match branches.get? branch with
    | none => none
    | some node =>
      match decompose node.right with
      | (id, false) => some id
      | (id, true) => rightmostAux branches fuel id

/-- Leftmost leaf index spanned by a branch (src/bvh.rs, BVH::leftmost);
the fuel covers every acyclic descent, so none means the source either
indexes out of range or loops forever. -/
def BVH.leftmost (t : BVH β ν) (branch : Nat) : Option Nat :=
  leftmostAux t.branches (t.branches.length + 1) branch

/-- Rightmost leaf index spanned by a branch (src/bvh.rs, BVH::rightmost). -/
def BVH.rightmost (t : BVH β ν) (branch : Nat) : Option Nat :=
  rightmostAux t.branches (t.branches.length + 1) branch

/-- The leaf payloads of the index range lo..=hi yielded by the Include
shortcut of BVH::query (src/bvh.rs); none when an index is out of range. -/
def yieldRange (leaves : List (BVHLeaf β ν)) (lo hi : Nat) : Option (List ν) :=
  (List.range' lo (hi + 1 - lo)).mapM (fun i => (leaves.get? i).map (fun l => l.value))

/-- The backtrack loop of BVH::query (src/bvh.rs, lines 136-148): after
popping oldtop, push the right sibling when oldtop was a left child,
else keep ascending; none embeds the assert that every stack entry
below the top is a branch, or an out-of-range branch index. -/
def backtrack (branches : List (BVHBranch β)) : Nat → List Nat → Option (List Nat)
  | _, [] => some []
  | oldtop, newtop :: rest =>
    match decompose newtop with
    | (_, false) => none
    | (index, true) =>
      match branches.get? index with
      | none => none
      | some parent =>
        if oldtop = parent.left then some (parent.right :: newtop :: rest)
        else backtrack branches newtop rest

/-- The main traversal loop of BVH::query (src/bvh.rs, lines 98-150),
with the stack topped by its head, a query body as a function on bounds,
fuel for the unbounded while loop, and none embedding a panic (an
out-of-range index or a failed assert).  As in the source, a branch on
top of the stack is looked up at the raw tagged reference top, not at
the decoded index. -/
def queryLoop (t : BVH β ν) (q : β → AABBRelation) :
    Nat → List Nat → Option (List ν)
  | 0, _ => none
  | _, [] => some []
  | fuel + 1, top :: rest =>
    match decompose top with
    | (id, true) =>
      match t.branches.get? top with
      | none => none
      | some branch =>
        match q branch.bound with
        | .Interleave =>
          match backtrack t.branches top rest with
          | none => none
          | some st => queryLoop t q fuel st
        | .Intersect => queryLoop t q fuel (branch.left :: top :: rest)
        | .Include =>
          match t.leftmost id, t.rightmost id with
          | some lm, some rm =>
            match yieldRange t.leaves lm rm with
            | none => none
            | some vals =>
              match backtrack t.branches top rest with
              | none => none
              | some st => (queryLoop t q fuel st).map (fun l => vals ++ l)
          | _, _ => none
    | (id, false) =>
      match t.leaves.get? id with
      | none => none
      | some leaf =>
        let ys := match q leaf.bound with
          | .Interleave => ([] : List ν)
          | _ => [leaf.value]
        match backtrack t.branches top rest with
        | none => none
        | some st => (queryLoop t q fuel st).map (fun l => ys ++ l)

/-- BVH::query (src/bvh.rs): the full finite sequence the lazy iterator
produces, or none when the traversal panics or the fuel runs out. -/
def BVH.query (t : BVH β ν) (q : β → AABBRelation) (fuel : Nat) : Option (List ν) :=
  if t.root == 0 && t.leaves.length == 0 then some []
  else queryLoop t q fuel [t.root]

/-- Modelled from the spec: the naive linear scan over the leaf array
that keeps exactly the leaves whose bound checks as non-Disjoint, in
leaf-array index order (the refinement reference of section 8 of the
spec; it has no counterpart under src/). -/
def linearScanSpec (t : BVH β ν) (q : β → AABBRelation) : List ν :=
  (t.leaves.filter (fun l => q l.bound != AABBRelation.Interleave)).map
    (fun l => l.value)

/- Concrete inputs for the evaluative theorems. -/

/-- The minimal well-formed BVH for claim C1: two leaves with payloads
10 and 20, one branch whose children are leaf 0 (reference 0) and
leaf 1 (reference 2), root the branch (reference 1). -/
def treeC1 : BVH Unit Nat :=
  ⟨1, [⟨(), 0, 2⟩], [⟨(), 10⟩, ⟨(), 20⟩]⟩

/-- The minimal well-formed BVH for claim C4: two leaves with payloads
7 and 8, one branch, root the branch. -/
def treeC4 : BVH Unit Nat :=
  ⟨1, [⟨(), 0, 2⟩], [⟨(), 7⟩, ⟨(), 8⟩]⟩

/-- A three-leaf BVH for claim C9: branch 0 joins leaves 0 and 1,
branch 1 (the root, reference 3) joins branch 0 (reference 1) and
leaf 2 (reference 4). -/
def treeC9 : BVH Unit Nat :=
  ⟨3, [⟨(), 0, 2⟩, ⟨(), 1, 4⟩], [⟨(), 1⟩, ⟨(), 2⟩, ⟨(), 3⟩]⟩

/-- A face-contact pair: the unit cube. -/
def faceBoxA : AABB3 Int := ⟨⟨(0, 1), (0, 1), (0, 1)⟩⟩

/-- A face-contact pair: the unit cube shifted by one along x. -/
def faceBoxB : AABB3 Int := ⟨⟨(1, 2), (0, 1), (0, 1)⟩⟩

/-- A volume-overlap pair: the cube of side 2 at the origin. -/
def volBoxA : AABB3 Int := ⟨⟨(0, 2), (0, 2), (0, 2)⟩⟩

/-- A volume-overlap pair: the cube of side 2 at (1,1,1). -/
def volBoxB : AABB3 Int := ⟨⟨(1, 3), (1, 3), (1, 3)⟩⟩

/-- A box strictly contained in outerBox5 on every axis. -/
def innerBox5 : AABB3 Int := ⟨⟨(2, 3), (2, 3), (2, 3)⟩⟩

/-- A box strictly containing innerBox5 on every axis. -/
def outerBox5 : AABB3 Int := ⟨⟨(0, 5), (0, 5), (0, 5)⟩⟩

/-- A box strictly contained in outerBox6 on every axis. -/
def innerBox6 : AABB3 Int := ⟨⟨(1, 2), (1, 2), (1, 2)⟩⟩

/-- A box strictly containing innerBox6 on every axis. -/
def outerBox6 : AABB3 Int := ⟨⟨(0, 4), (0, 4), (0, 4)⟩⟩

/-- A box with its maximal corner exactly on the plane x = 0 and the
rest strictly below it: the boundary case where the fast path and the
naive 8-corner reference disagree. -/
def cexBox : AABB3 Int := ⟨⟨(-1, 0), (0, 1), (0, 1)⟩⟩

/-- Plane point for claim C2's witness. -/
def wPlanePoint : Vec3 Int := ⟨0, 0, 0⟩

/-- Plane normal for claim C2's witness. -/
def wPlaneNormal : Vec3 Int := ⟨1, 1, 0⟩

/-- Query box for claim C2's witness, strictly above the witness plane. -/
def wPlaneBox : AABB3 Int := ⟨⟨(1, 2), (1, 2), (1, 2)⟩⟩

/-- Corner points used by claim C8's witness (src/aabb.rs test values). -/
def wPoint0 : Vec3 Int := ⟨1, -5, 3⟩

/-- Corner points used by claim C8's witness. -/
def wPoint1 : Vec3 Int := ⟨4, 2, 6⟩

/-- A canonical box for claim C8's witness. -/
def wBoxA : AABB3 Int := ⟨⟨(1, 4), (-5, 2), (3, 6)⟩⟩

/-- A canonical box overlapping wBoxA for claim C8's witness. -/
def wBoxB : AABB3 Int := ⟨⟨(-3, 2), (1, 6), (-2, 5)⟩⟩

/-- The intersection of wBoxA and wBoxB. -/
def wBoxC : AABB3 Int := ⟨⟨(1, 2), (1, 2), (3, 5)⟩⟩

/- Theorems. -/

/-- Helper: ordering a pair puts the smaller component first. -/
theorem order_pair_le [LinearOrder α] (a b : α) :
    (order_pair a b).1 ≤ (order_pair a b).2 := by
  unfold order_pair
  split_ifs with h
  · exact le_of_lt h
  · exact le_of_not_lt h

/-- Helper: an interval produced by intersect_intervals from a canonical
second operand is itself ordered. -/
theorem intersect_intervals_canonical [LinearOrder α] {a b c : α × α}
    (hb : b.1 ≤ b.2) (h : intersect_intervals a b = some c) : c.1 ≤ c.2 := by
  unfold intersect_intervals at h
  split_ifs at h with h1 h2
  · cases h
    exact le_min h1.2 hb
  · cases h
    exact max_le h2.1 hb

/-- Helper: when the closed intervals do not overlap, intersect_intervals
yields none. -/
theorem intersect_intervals_none [LinearOrder α] {a b : α × α}
    (hb : b.1 ≤ b.2) (h : ¬(a.1 ≤ b.2 ∧ b.1 ≤ a.2)) :
    intersect_intervals a b = none := by
  unfold intersect_intervals
  split_ifs with h1 h2
  · exact absurd ⟨le_trans h1.1 hb, h1.2⟩ h
  · exact absurd ⟨h2.1, le_trans hb h2.2⟩ h
  · rfl

/-- Helper: a successful fail-fast map succeeds on every component. -/
theorem vtry_eq_some {v : Vec3 α} {f : α → Option β} {w : Vec3 β}
    (h : v.vtry f = some w) :
    f v.x = some w.x ∧ f v.y = some w.y ∧ f v.z = some w.z := by
  unfold Vec3.vtry at h
  rcases hx : f v.x with _ | a <;> rcases hy : f v.y with _ | b <;>
    rcases hz : f v.z with _ | c <;> rw [hx, hy, hz] at h <;>
      simp only [reduceCtorEq] at h
  injection h with h
  subst h
  exact ⟨rfl, rfl, rfl⟩

/-- Helper: a fail-fast map with a failing component fails. -/
theorem vtry_eq_none {v : Vec3 α} {f : α → Option β}
    (h : f v.x = none ∨ f v.y = none ∨ f v.z = none) : v.vtry f = none := by
  unfold Vec3.vtry
  rcases hx : f v.x with _ | a <;> rcases hy : f v.y with _ | b <;>
    rcases hz : f v.z with _ | c <;> simp_all

/-- Claim C8: boxes built by the canonical constructor, by union, or as
a some result of intersection of canonical boxes are canonical (lo ≤ hi
per axis), and intersects signals non-overlapping inputs by none. -/
theorem aabb3_constructions_canonical [LinearOrder α]
    (p0 p1 : Vec3 α) (a b c : AABB3 α)
    (ha : a.canonical) (hb : b.canonical) :
    (AABB3.new p0 p1).canonical ∧
    (a.extend b).canonical ∧
    (a.intersects b = some c → c.canonical) ∧
    (¬ axisOverlap a b → a.intersects b = none) := by
  obtain ⟨hax, hay, haz⟩ := ha
  obtain ⟨hbx, hby, hbz⟩ := hb
  refine ⟨⟨order_pair_le _ _, order_pair_le _ _, order_pair_le _ _⟩, ?_, ?_, ?_⟩
  · exact ⟨le_trans (min_le_left _ _) (le_trans hax (le_max_left _ _)),
      le_trans (min_le_left _ _) (le_trans hay (le_max_left _ _)),
      le_trans (min_le_left _ _) (le_trans haz (le_max_left _ _))⟩
  · intro h
    unfold AABB3.intersects at h
    rcases hw : (a.iv.vzip b.iv).vtry (fun p => intersect_intervals p.1 p.2) with _ | w
    · rw [hw] at h
      simp at h
    · rw [hw] at h
      simp at h
      obtain ⟨h1, h2, h3⟩ := vtry_eq_some hw
      subst h
      exact ⟨intersect_intervals_canonical hbx h1,
        intersect_intervals_canonical hby h2,
        intersect_intervals_canonical hbz h3⟩
  · intro h
    unfold AABB3.intersects
    have hnone :
        (a.iv.vzip b.iv).vtry (fun p => intersect_intervals p.1 p.2) = none := by
      apply vtry_eq_none
      by_cases h1 : a.iv.x.1 ≤ b.iv.x.2 ∧ b.iv.x.1 ≤ a.iv.x.2
      · by_cases h2 : a.iv.y.1 ≤ b.iv.y.2 ∧ b.iv.y.1 ≤ a.iv.y.2
        · by_cases h3 : a.iv.z.1 ≤ b.iv.z.2 ∧ b.iv.z.1 ≤ a.iv.z.2
          · exact absurd ⟨h1, h2, h3⟩ h
          · exact Or.inr (Or.inr (intersect_intervals_none hbz h3))
        · exact Or.inr (Or.inl (intersect_intervals_none hby h2))
      · exact Or.inl (intersect_intervals_none hbx h1)
    rw [hnone]
    rfl

/-- Claim C8 witness: the test boxes of src/aabb.rs instantiate every
part of the construction-canonicity theorem. -/
theorem aabb3_constructions_canonical_witness :
    (AABB3.new wPoint0 wPoint1).canonical ∧
    (wBoxA.extend wBoxB).canonical ∧
    (wBoxA.intersects wBoxB = some wBoxC → wBoxC.canonical) ∧
    (¬ axisOverlap wBoxA wBoxB → wBoxA.intersects wBoxB = none) :=
  aabb3_constructions_canonical wPoint0 wPoint1 wBoxA wBoxB wBoxC
    (by decide) (by decide)

/-- Claim C10: is_degraded returns true exactly when lo and hi differ on
all three axes simultaneously. -/
theorem is_degraded_iff_all_axes_ne [DecidableEq α] (a : AABB3 α) :
    a.is_degraded = true ↔
      (a.iv.x.1 ≠ a.iv.x.2 ∧ a.iv.y.1 ≠ a.iv.y.2 ∧ a.iv.z.1 ≠ a.iv.z.2) := by
  unfold AABB3.is_degraded Vec3.vtry is_ne_pair
  by_cases hx : a.iv.x.1 = a.iv.x.2 <;>
    by_cases hy : a.iv.y.1 = a.iv.y.2 <;>
      by_cases hz : a.iv.z.1 = a.iv.z.2 <;>
        simp [hx, hy, hz]

/-- Claim C3 evaluation: does_intersects_with reports true for two unit
cubes sharing only a face and false for two cubes overlapping with
positive volume, the opposite of the documented convention. -/
theorem does_intersects_with_inverted_eval :
    AABB3.does_intersects_with faceBoxA faceBoxB = true ∧
    AABB3.intersects faceBoxA faceBoxB = some (⟨⟨(1, 1), (0, 1), (0, 1)⟩⟩ : AABB3 Int) ∧
    AABB3.does_intersects_with volBoxA volBoxB = false ∧
    AABB3.intersects volBoxA volBoxB = some (⟨⟨(1, 2), (1, 2), (1, 2)⟩⟩ : AABB3 Int) := by
  decide

/-- Claim C5 evaluation: the per-axis overlap condition of the spec
holds for a box strictly contained in another, yet intersects returns
none instead of the contained box. -/
theorem intersects_misses_containment_eval :
    axisOverlap innerBox5 outerBox5 ∧
    innerBox5.canonical ∧ outerBox5.canonical ∧
    AABB3.intersects innerBox5 outerBox5 = none := by
  decide

/-- Claim C6 evaluation: intersects is not commutative; with a box
strictly contained in another one argument order yields none while the
other yields the contained box (idempotence does hold at this input). -/
theorem intersects_not_commutative_eval :
    innerBox6.canonical ∧ outerBox6.canonical ∧
    AABB3.intersects innerBox6 outerBox6 = none ∧
    AABB3.intersects outerBox6 innerBox6 = some innerBox6 ∧
    AABB3.intersects innerBox6 innerBox6 = some innerBox6 := by
  decide

/-- Helper: cmp3 on a strictly smaller first argument. -/
theorem cmp3_of_lt {a b : Int} (h : a < b) : cmp3 a b = .lt := by
  simp [cmp3, h]

/-- Helper: cmp3 on a strictly larger first argument. -/
theorem cmp3_of_gt {a b : Int} (h : b < a) : cmp3 a b = .gt := by
  simp [cmp3, lt_asymm h, ne_of_gt h]

/-- Helper: cmp3 on equal arguments. -/
theorem cmp3_of_eq {a b : Int} (h : a = b) : cmp3 a b = .eq := by
  subst h
  simp [cmp3]

/-- Helper: per axis, the pair selected by reorder_pair from the sign of
the direction component brackets the contribution of either interval
endpoint to the signed distance. -/
theorem reorder_between (lo hi c t : Int) (hc : lo ≤ hi) (hm : c = lo ∨ c = hi) :
    (reorder_pair (lo, hi) (cmp3 t 0)).2 * t ≤ c * t ∧
      c * t ≤ (reorder_pair (lo, hi) (cmp3 t 0)).1 * t := by
  rcases lt_trichotomy t 0 with h | h | h
  · rw [cmp3_of_lt h]
    rcases hm with rfl | rfl <;> constructor <;> simp only [reorder_pair] <;> nlinarith
  · subst h
    rw [cmp3_of_eq rfl]
    rcases hm with rfl | rfl <;> constructor <;> simp [reorder_pair]
  · rw [cmp3_of_gt h]
    rcases hm with rfl | rfl <;> constructor <;> simp only [reorder_pair] <;> nlinarith

/-- Helper: the bracketing of reorder_between summed over the three
axes: any point choosing its coordinates among the per-axis interval
ends has its signed distance between those of the two selected corners. -/
theorem dot_corner_between (b : AABB3 Int) (n : Vec3 Int) (c : Vec3 Int)
    (hb : b.canonical)
    (hcx : c.x = b.iv.x.1 ∨ c.x = b.iv.x.2)
    (hcy : c.y = b.iv.y.1 ∨ c.y = b.iv.y.2)
    (hcz : c.z = b.iv.z.1 ∨ c.z = b.iv.z.2) :
    ((b.from_ordering n.to_ordering).unzip).2.dot n ≤ c.dot n ∧
      c.dot n ≤ ((b.from_ordering n.to_ordering).unzip).1.dot n := by
  obtain ⟨h1, h2, h3⟩ := hb
  have Hx := reorder_between b.iv.x.1 b.iv.x.2 c.x n.x h1 hcx
  have Hy := reorder_between b.iv.y.1 b.iv.y.2 c.y n.y h2 hcy
  have Hz := reorder_between b.iv.z.1 b.iv.z.2 c.z n.z h3 hcz
  constructor
  · exact add_le_add (add_le_add Hx.1 Hy.1) Hz.1
  · exact add_le_add (add_le_add Hx.2 Hy.2) Hz.2

/-- Helper: membership in the corner list determines each coordinate to
be the low or the high end of its axis. -/
theorem mem_corners_components {b : AABB3 Int} {c : Vec3 Int} (h : c ∈ corners b) :
    (c.x = b.iv.x.1 ∨ c.x = b.iv.x.2) ∧ (c.y = b.iv.y.1 ∨ c.y = b.iv.y.2) ∧
      (c.z = b.iv.z.1 ∨ c.z = b.iv.z.2) := by
  simp only [corners, List.mem_cons, List.not_mem_nil, or_false] at h
  rcases h with rfl | rfl | rfl | rfl | rfl | rfl | rfl | rfl <;> simp

/-- Helper: both corners selected by from_ordering are corners of the box. -/
theorem selected_mem_corners (b : AABB3 Int) (v : Vec3 Ordering) :
    ((b.from_ordering v).unzip).1 ∈ corners b ∧
      ((b.from_ordering v).unzip).2 ∈ corners b := by
  obtain ⟨⟨⟨lx, hx⟩, ⟨ly, hy⟩, ⟨lz, hz⟩⟩⟩ := b
  obtain ⟨ox, oy, oz⟩ := v
  cases ox <;> cases oy <;> cases oz <;> simp [corners, AABB3.from_ordering,
    Vec3.vzip, Vec3.vmap, Vec3.unzip, reorder_pair]

/-- Claim C7: for every canonical AABB and direction vector, the signed
distance of each of the 8 box corners lies between the signed distances
of the two corners extracted through the sign vector. -/
theorem from_ordering_corners_extremal (n : Vec3 Int) (bound : AABB3 Int)
    (hb : bound.canonical) :
    ∀ c ∈ corners bound,
      ((bound.from_ordering n.to_ordering).unzip).2.dot n ≤ c.dot n ∧
        c.dot n ≤ ((bound.from_ordering n.to_ordering).unzip).1.dot n := by
  intro c hc
  obtain ⟨hcx, hcy, hcz⟩ := mem_corners_components hc
  exact dot_corner_between bound n c hb hcx hcy hcz

/-- Claim C7 witness: the extremality theorem applied to a concrete
direction, box and corner. -/
theorem from_ordering_corners_extremal_witness :
    ((faceBoxA.from_ordering (Vec3.to_ordering ⟨1, -2, 0⟩)).unzip).2.dot ⟨1, -2, 0⟩ ≤
        (⟨0, 1, 0⟩ : Vec3 Int).dot ⟨1, -2, 0⟩ ∧
      (⟨0, 1, 0⟩ : Vec3 Int).dot ⟨1, -2, 0⟩ ≤
        ((faceBoxA.from_ordering (Vec3.to_ordering ⟨1, -2, 0⟩)).unzip).1.dot ⟨1, -2, 0⟩ :=
  from_ordering_corners_extremal ⟨1, -2, 0⟩ faceBoxA (by decide) ⟨0, 1, 0⟩ (by decide)

/-- Claim C1 evaluation: on the minimal well-formed two-leaf tree with a
query body answering Partial everywhere, the traversal aborts (it
indexes the branch array with the raw tagged root reference 1, out of
range) for every fuel, while the naive linear scan yields both payloads
in leaf order. -/
theorem bvh_query_partial_aborts_eval :
    (∀ fuel, BVH.query treeC1 (fun _ => AABBRelation.Intersect) fuel = none) ∧
    linearScanSpec treeC1 (fun _ => AABBRelation.Intersect) = [10, 20] ∧
    treeC1.branches.length + 1 = treeC1.leaves.length := by
  refine ⟨fun fuel => ?_, rfl, rfl⟩
  cases fuel <;> rfl

/-- Claim C4 evaluation: on the minimal well-formed two-leaf tree with a
query body answering FullyContained everywhere, the traversal aborts for
every fuel instead of yielding all leaf payloads in leaf-array order. -/
theorem bvh_query_include_aborts_eval :
    (∀ fuel, BVH.query treeC4 (fun _ => AABBRelation.Include) fuel = none) ∧
    treeC4.branches.length + 1 = treeC4.leaves.length := by
  refine ⟨fun fuel => ?_, rfl⟩
  cases fuel <;> rfl

/-- Claim C9 evaluation: on a well-formed three-leaf tree whose root is
branch 1 (tagged reference 3), the very first loop iteration indexes the
branch array at 3, out of range for the two stored branches, so the
traversal aborts for every query body and every fuel. -/
theorem bvh_query_out_of_bounds_eval (q : Unit → AABBRelation) (fuel : Nat) :
    BVH.query treeC9 q fuel = none := by
  cases fuel <;> rfl

/-- Helper: the flag-carrying corner loop classifies by the presence of
strictly-below and strictly-above corners, provided both flags were not
already set (the loop would have returned earlier). -/
theorem naiveLoop_spec (p : PlaneNaive3) (vs : List (Vec3 Int)) :
    ∀ less equal greater : Bool, (less && greater) = false →
      naiveLoop p vs less equal greater =
        (if (less = true ∨ ∃ v ∈ vs, (v.vsub p.point).dot p.normal < 0) ∧
            (greater = true ∨ ∃ v ∈ vs, 0 < (v.vsub p.point).dot p.normal) then
          .Intersect
        else if greater = true ∨ ∃ v ∈ vs, 0 < (v.vsub p.point).dot p.normal then
          .Interleave
        else if less = true ∨ ∃ v ∈ vs, (v.vsub p.point).dot p.normal < 0 then
          .Include
        else .Intersect) := by
  induction vs with
  | nil =>
    intro less equal greater h
    cases less <;> cases greater <;> simp_all [naiveLoop]
  | cons v rest ih =>
    intro less equal greater h
    rcases lt_trichotomy ((v.vsub p.point).dot p.normal) 0 with hv | hv | hv
    · have hc := cmp3_of_lt hv
      cases greater
      · have hrec := ih true equal false rfl
        simp only [naiveLoop, hc]
        rw [hrec]
        simp [hv, lt_asymm hv]
      · have hless : less = false := by cases less <;> simp_all
        subst hless
        simp only [naiveLoop, hc]
        simp [hv, lt_asymm hv]
    · have hc := cmp3_of_eq hv
      have hrec := ih less true greater h
      simp only [naiveLoop, hc]
      rw [hrec]
      simp [hv]
    · have hc := cmp3_of_gt hv
      cases less
      · have hrec := ih false equal true rfl
        simp only [naiveLoop, hc]
        rw [hrec]
        simp [hv, lt_asymm hv]
      · have hgreater : greater = false := by cases greater <;> simp_all
        subst hgreater
        simp only [naiveLoop, hc]
        simp [hv, lt_asymm hv]

/-- Helper: the naive 8-corner classification in closed form: Partial on
mixed signs, Disjoint when some corner is strictly above and none
strictly below, FullyContained when some corner is strictly below and
none strictly above, Partial when all corners are on the plane. -/
theorem planeNaive3_check_cases (p : PlaneNaive3) (bound : AABB3 Int) :
    p.check bound =
      (if (∃ v ∈ corners bound, (v.vsub p.point).dot p.normal < 0) ∧
          (∃ v ∈ corners bound, 0 < (v.vsub p.point).dot p.normal) then
        .Intersect
      else if ∃ v ∈ corners bound, 0 < (v.vsub p.point).dot p.normal then
        .Interleave
      else if ∃ v ∈ corners bound, (v.vsub p.point).dot p.normal < 0 then
        .Include
      else .Intersect) := by
  have h := naiveLoop_spec p (corners bound) false false false rfl
  simpa [PlaneNaive3.check] using h

/-- Helper: the fast path unfolded to its two signed distances. -/
theorem plane3_check_unfold (point normal : Vec3 Int) (bound : AABB3 Int) :
    (Plane3.new point normal).check bound =
      (if point.dot normal < ((bound.from_ordering normal.to_ordering).unzip).2.dot normal then
        if point.dot normal ≤ ((bound.from_ordering normal.to_ordering).unzip).1.dot normal then
          .Interleave
        else .Intersect
      else if ((bound.from_ordering normal.to_ordering).unzip).1.dot normal < point.dot normal then
        .Include
      else .Intersect) := rfl

/-- Claim C2 counterexample: with the plane through the origin with
normal (1,0,0) and a box whose maximal corner lies exactly on the plane,
the two-corner fast path answers Partial while the naive 8-corner
reference answers FullyContained. -/
theorem plane3_check_ne_naive_at_boundary :
    (Plane3.new ⟨0, 0, 0⟩ ⟨1, 0, 0⟩).check cexBox = AABBRelation.Intersect ∧
    (PlaneNaive3.mk ⟨0, 0, 0⟩ ⟨1, 0, 0⟩).check cexBox = AABBRelation.Include := by
  decide

/-- Claim C2 as amended: for every point, normal and canonical box where
neither extracted corner's signed distance equals the plane offset, the
two-corner fast path agrees with the brute-force 8-corner
classification. -/
theorem plane3_check_agrees_off_boundary (point normal : Vec3 Int) (bound : AABB3 Int)
    (hb : bound.canonical)
    (hdp : ((bound.from_ordering normal.to_ordering).unzip).2.dot normal ≠ point.dot normal)
    (hdn : ((bound.from_ordering normal.to_ordering).unzip).1.dot normal ≠ point.dot normal) :
    (Plane3.new point normal).check bound = (PlaneNaive3.mk point normal).check bound := by
  have hmem := selected_mem_corners bound normal.to_ordering
  have hext : ∀ c ∈ corners bound,
      ((bound.from_ordering normal.to_ordering).unzip).2.dot normal ≤ c.dot normal ∧
        c.dot normal ≤ ((bound.from_ordering normal.to_ordering).unzip).1.dot normal := by
    intro c hc
    obtain ⟨hcx, hcy, hcz⟩ := mem_corners_components hc
    exact dot_corner_between bound normal c hb hcx hcy hcz
  have hsub : ∀ v : Vec3 Int,
      (v.vsub point).dot normal = v.dot normal - point.dot normal := by
    intro v
    simp only [Vec3.vsub, Vec3.dot]
    ring
  rw [plane3_check_unfold, planeNaive3_check_cases]
  rcases lt_trichotomy (point.dot normal)
      (((bound.from_ordering normal.to_ordering).unzip).2.dot normal) with h1 | h1 | h1
  · have hdpdn := (hext _ hmem.1).1
    have hG : ∃ v ∈ corners bound, 0 < (v.vsub point).dot normal :=
      ⟨_, hmem.2, by rw [hsub]; omega⟩
    have hnL : ¬ ∃ v ∈ corners bound, (v.vsub point).dot normal < 0 := by
      rintro ⟨c, hc, hlt⟩
      rw [hsub] at hlt
      have := (hext c hc).1
      omega
    rw [if_pos h1, if_pos (by omega : point.dot normal ≤
      ((bound.from_ordering normal.to_ordering).unzip).1.dot normal)]
    rw [if_neg (fun hh => hnL hh.1), if_pos hG]
  · exact absurd h1.symm hdp
  · rcases lt_trichotomy
        (((bound.from_ordering normal.to_ordering).unzip).1.dot normal)
        (point.dot normal) with h2 | h2 | h2
    · have hL : ∃ v ∈ corners bound, (v.vsub point).dot normal < 0 :=
        ⟨_, hmem.1, by rw [hsub]; omega⟩
      have hnG : ¬ ∃ v ∈ corners bound, 0 < (v.vsub point).dot normal := by
        rintro ⟨c, hc, hlt⟩
        rw [hsub] at hlt
        have := (hext c hc).2
        omega
      rw [if_neg (by omega : ¬ point.dot normal <
        ((bound.from_ordering normal.to_ordering).unzip).2.dot normal)]
      rw [if_pos h2]
      rw [if_neg (fun hh => hnG hh.2), if_neg hnG, if_pos hL]
    · exact absurd h2 hdn
    · have hL : ∃ v ∈ corners bound, (v.vsub point).dot normal < 0 :=
        ⟨_, hmem.2, by rw [hsub]; omega⟩
      have hG : ∃ v ∈ corners bound, 0 < (v.vsub point).dot normal :=
        ⟨_, hmem.1, by rw [hsub]; omega⟩
      rw [if_neg (by omega : ¬ point.dot normal <
        ((bound.from_ordering normal.to_ordering).unzip).2.dot normal)]
      rw [if_neg (by omega : ¬ ((bound.from_ordering normal.to_ordering).unzip).1.dot
        normal < point.dot normal)]
      rw [if_pos ⟨hL, hG⟩]

/-- Claim C2 witness: the amended agreement theorem applied to a
concrete plane and box strictly above it. -/
theorem plane3_check_agrees_off_boundary_witness :
    (Plane3.new wPlanePoint wPlaneNormal).check wPlaneBox =
      (PlaneNaive3.mk wPlanePoint wPlaneNormal).check wPlaneBox :=
  plane3_check_agrees_off_boundary wPlanePoint wPlaneNormal wPlaneBox
    (by decide) (by decide) (by decide)
